import Mathlib

/-!
Shallow embedding of `konwerter.py`, a batch image-to-WebP converter.

The script enumerates files of an input directory, filters them by
extension, converts each to WebP (preserving alpha for RGBA / LA /
palette-with-transparency images, converting everything else to RGB),
writes the result into an output directory, and prints per-file and
aggregate size statistics.  I/O effects (decoding, encoding, the
filesystem) are modelled by explicit data: each directory entry carries
its size in bytes together with the decode / encode outcomes the
environment would produce for it, and the output directory is an
association list from path to the encoded artifact.
-/

namespace Konwerter

/-- PIL image modes that matter to the script; every other mode string is
`other`. -/
inductive Mode where
  | RGB
  | RGBA
  | LA
  | L
  | P
  | CMYK
  | other (s : String)
deriving DecidableEq, Repr

/-- A decoded image: its mode and whether its metadata dictionary carries a
`transparency` entry (Python: `'transparency' in img.info`). -/
structure Image where
  mode : Mode
  infoTransparency : Bool
deriving DecidableEq, Repr

/-- One call to `img.save(...)`: the target path, format, quality, the
`lossless` keyword when it was passed, the mode of the image at save time,
and whether `img.convert('RGB')` ran first. -/
structure SaveCmd where
  path : String
  format : String
  quality : Nat
  lossless : Option Bool
  savedMode : Mode
  convertedToRGB : Bool
deriving DecidableEq, Repr

/-- The alpha test of line 57:
`img.mode in ('RGBA', 'LA') or (img.mode == 'P' and 'transparency' in img.info)`. -/
def hasAlpha (img : Image) : Bool :=
  (img.mode == Mode.RGBA || img.mode == Mode.LA) ||
    (img.mode == Mode.P && img.infoTransparency)

/-- The body of the `with Image.open(...)` block (lines 57-64): pick the
save call the decoded image receives. -/
def convertBody (img : Image) (outputPath : String) (quality : Nat) : SaveCmd :=
  if hasAlpha img then
    ⟨outputPath, "WEBP", quality, some false, img.mode, false⟩
  else if img.mode != Mode.RGB then
    ⟨outputPath, "WEBP", quality, none, Mode.RGB, true⟩
  else
    ⟨outputPath, "WEBP", quality, none, img.mode, false⟩

/-- The message printed by the `except` branch of `convert_to_webp`
(line 67). -/
def errorLine (inputName msg : String) : String :=
  "  ❌ Błąd podczas konwersji " ++ inputName ++ ": " ++ msg

/-- Outcome of one `convert_to_webp` call: the returned boolean, the save
that was performed (when any), and the lines printed by the handler. -/
structure ConvResult where
  success : Bool
  saved : Option SaveCmd
  log : List String
deriving DecidableEq, Repr

/-- `convert_to_webp` (lines 45-68).  `decodeRes` is what `Image.open`
does on this input (the decoded image, or the exception message), and
`encodeErr` is the exception `img.save` would raise, if any.  Every error
is caught: the function always returns, with `success = false` and the
logged line on failure. -/
def convert_to_webp (inputName outputPath : String) (quality : Nat)
    (decodeRes : Except String Image) (encodeErr : Option String) : ConvResult :=
  match decodeRes with
  | Except.error e => ⟨false, none, [errorLine inputName e]⟩
  | Except.ok img =>
    match encodeErr with
    | some e => ⟨false, none, [errorLine inputName e]⟩
    | none => ⟨true, some (convertBody img outputPath quality), []⟩

/-- `get_file_size_mb` (lines 71-73): size in binary megabytes. -/
def get_file_size_mb (bytes : Nat) : ℚ :=
  (bytes : ℚ) / (1024 * 1024)

instance : DecidableEq (Except String Image) := fun a b =>
  match a, b with
  | Except.error x, Except.error y =>
    if h : x = y then isTrue (by rw [h]) else isFalse (fun hh => h (by cases hh; rfl))
  | Except.error _, Except.ok _ => isFalse (fun hh => Except.noConfusion hh)
  | Except.ok _, Except.error _ => isFalse (fun hh => Except.noConfusion hh)
  | Except.ok x, Except.ok y =>
    if h : x = y then isTrue (by rw [h]) else isFalse (fun hh => h (by cases hh; rfl))

/-- One entry of the input directory, together with the environment's
answers for it: its byte size, what decoding it yields, whether encoding
raises, and the byte size the written output file would have. -/
structure Entry where
  name : String
  isFile : Bool
  inputBytes : Nat
  decodeRes : Except String Image
  encodeErr : Option String
  outputBytes : Nat
deriving DecidableEq, Repr

/-- Index of the last `'.'` in a character list, if any
(Python `str.rfind('.')`). -/
def lastDotIdx : List Char → Option Nat
  | [] => none
  | c :: cs =>
    match lastDotIdx cs with
    | some i => some (i + 1)
    | none => if c = '.' then some 0 else none

/-- `pathlib.PurePath.suffix`: the extension of the final component,
including the dot; empty when the only dot leads the name or ends it. -/
def pySuffix (name : String) : String :=
  let cs := name.toList
  match lastDotIdx cs with
  | some i => if 0 < i ∧ i + 1 < cs.length then String.mk (cs.drop i) else ""
  | none => ""

/-- `pathlib.PurePath.stem`: the final component without its suffix. -/
def pyStem (name : String) : String :=
  let cs := name.toList
  match lastDotIdx cs with
  | some i => if 0 < i ∧ i + 1 < cs.length then String.mk (cs.take i) else name
  | none => name

/-- `str.lower()` on an extension. -/
def lowerStr (s : String) : String :=
  String.mk (s.toList.map Char.toLower)

/-- `SUPPORTED_FORMATS` (line 33). -/
def SUPPORTED_FORMATS : List String :=
  [".jpg", ".jpeg", ".png", ".bmp", ".gif", ".tiff", ".tif"]

/-- `HEIC_FORMATS` (line 34). -/
def HEIC_FORMATS : List String :=
  [".heic", ".heif"]

/-- `all_formats` (lines 86-88): the baseline set, extended by the HEIC
extensions when `pillow_heif` imported. -/
def all_formats (heicSupported : Bool) : List String :=
  if heicSupported then SUPPORTED_FORMATS ++ HEIC_FORMATS else SUPPORTED_FORMATS

/-- `image_files` (lines 90-93): regular files whose lowercased suffix is
in `all_formats`. -/
def imageFiles (entries : List Entry) (heicSupported : Bool) : List Entry :=
  entries.filter (fun f => f.isFile && (all_formats heicSupported).contains (lowerStr (pySuffix f.name)))

/-- `heic_files` (lines 96-99): regular files whose lowercased suffix is a
HEIC extension. -/
def heicFiles (entries : List Entry) : List Entry :=
  entries.filter (fun f => f.isFile && HEIC_FORMATS.contains (lowerStr (pySuffix f.name)))

/-- `OUTPUT_FOLDER` (line 30), relative to the script directory. -/
def OUTPUT_FOLDER : String := "przerobione"

/-- Line 117: `OUTPUT_FOLDER / f"<stem>.webp"`. -/
def outputPathFor (inputName : String) : String :=
  OUTPUT_FOLDER ++ "/" ++ (pyStem inputName ++ ".webp")

/-- The two lines printed when HEIC files are present without
`pillow_heif` (lines 101-102). -/
def heicWarningLines (count : Nat) : List String :=
  ["⚠️  Znaleziono " ++ toString count ++ " plików HEIC, ale brak biblioteki pillow-heif.",
   "   Zainstaluj ją komendą: pip install pillow-heif"]

/-- The filesystem the run touches: the entries of the input directory and
the output directory's contents (path to written artifact). -/
structure FS where
  inputDir : List Entry
  outDir : List (String × SaveCmd)
deriving DecidableEq, Repr

/-- Writing a file: replace the artifact under `name` when present,
otherwise append it — an unconditional overwrite, no existence check. -/
def writeOut (dir : List (String × SaveCmd)) (name : String) (content : SaveCmd) :
    List (String × SaveCmd) :=
  match dir with
  | [] => [(name, content)]
  | (n, c) :: rest =>
    if n = name then (name, content) :: rest else (n, c) :: writeOut rest name content

/-- What got printed for one file of the loop: the per-file values of
lines 117-131. -/
structure Report where
  fileName : String
  outputPath : String
  success : Bool
  inputMB : ℚ
  outputMB : Option ℚ
  reduction : Option ℚ
  log : List String
deriving DecidableEq, Repr

/-- Accumulator of the conversion loop (lines 112-131). -/
structure RunState where
  success_count : Nat
  total_input_size : ℚ
  total_output_size : ℚ
  reports : List Report
  fs : FS
deriving DecidableEq, Repr

/-- Initial accumulator (lines 112-114). -/
def initState (fs : FS) : RunState :=
  ⟨0, 0, 0, [], fs⟩

/-- The `convert_to_webp(input_file, output_file)` call of line 124 for one
entry (`quality` left at its default 85). -/
def convResultOf (j : Entry) : ConvResult :=
  convert_to_webp j.name (outputPathFor j.name) 85 j.decodeRes j.encodeErr

/-- The printed per-file record for one entry: output path (line 117),
input size in MB (line 121), outcome, and on success output size and the
guarded reduction percentage (lines 125-128). -/
def reportOf (j : Entry) : Report :=
  let output_file := outputPathFor j.name
  let input_size := get_file_size_mb j.inputBytes
  let cres := convResultOf j
  match cres.saved with
  | some _ =>
    let output_size := get_file_size_mb j.outputBytes
    let reduction := if 0 < input_size then (input_size - output_size) / input_size * 100 else 0
    ⟨j.name, output_file, true, input_size, some output_size, some reduction, cres.log⟩
  | none => ⟨j.name, output_file, false, input_size, none, none, cres.log⟩

/-- One iteration of the loop (lines 116-131): derive the output path, add
the input size to the running total, convert; on success write the output
file, add its size and bump the success count. -/
def processFile (st : RunState) (j : Entry) : RunState :=
  let output_file := outputPathFor j.name
  let input_size := get_file_size_mb j.inputBytes
  let cres := convResultOf j
  match cres.saved with
  | some cmd =>
    { success_count := st.success_count + 1
      total_input_size := st.total_input_size + input_size
      total_output_size := st.total_output_size + get_file_size_mb j.outputBytes
      reports := st.reports ++ [reportOf j]
      fs := { st.fs with outDir := writeOut st.fs.outDir output_file cmd } }
  | none =>
    { st with
      total_input_size := st.total_input_size + input_size
      reports := st.reports ++ [reportOf j] }

/-- The conversion loop over the discovered files. -/
def runLoop (jobs : List Entry) (st : RunState) : RunState :=
  match jobs with
  | [] => st
  | j :: rest => runLoop rest (processFile st j)

/-- The aggregate summary (lines 134-143): successes over total, both size
totals, and — only when the input total is positive — the absolute and
percentage savings. -/
structure Summary where
  success_count : Nat
  total_count : Nat
  total_input_size : ℚ
  total_output_size : ℚ
  savings : Option (ℚ × ℚ)
deriving DecidableEq, Repr

/-- Build the summary from the final loop state (lines 137-143). -/
def mkSummary (st : RunState) (total : Nat) : Summary :=
  ⟨st.success_count, total, st.total_input_size, st.total_output_size,
    if 0 < st.total_input_size then
      some (st.total_input_size - st.total_output_size,
        (st.total_input_size - st.total_output_size) / st.total_input_size * 100)
    else none⟩

/-- Everything observable about one `main()` run: the HEIC warning (the
count it reports, when emitted), whether the no-images early return fired,
the summary (absent on early return), and the final loop state. -/
structure MainResult where
  warning : Option Nat
  noImages : Bool
  summary : Option Summary
  state : RunState
deriving DecidableEq, Repr

/-- `main` (lines 76-145): discover files, warn about unsupported HEIC,
return early when nothing matched, otherwise run the loop and summarise. -/
def main (fs : FS) (heicSupported : Bool) : MainResult :=
  let image_files := imageFiles fs.inputDir heicSupported
  let heic_files := heicFiles fs.inputDir
  let warning := if !heic_files.isEmpty && !heicSupported then some heic_files.length else none
  if image_files.isEmpty then
    ⟨warning, true, none, initState fs⟩
  else
    let st := runLoop image_files (initState fs)
    ⟨warning, false, some (mkSummary st image_files.length), st⟩

/-- The Pillow import guard (lines 11-16) printed lines. -/
def pillowGuidance : List String :=
  ["Biblioteka Pillow nie jest zainstalowana.",
   "Zainstaluj ją komendą: pip install Pillow"]

/-- The whole process: when Pillow imports, `main` runs and the process
ends normally (status 0); when it does not, the guidance is printed and
`exit(1)` fires before anything else happens. -/
def programRun (pillowOk : Bool) (fs : FS) (heicSupported : Bool) :
    Nat × List String × Option MainResult :=
  if pillowOk then (0, [], some (main fs heicSupported))
  else (1, pillowGuidance, none)

/-! ## Sample inputs -/

/-- A transparent PNG-like entry that converts successfully. -/
def samplePng : Entry :=
  ⟨"icon.png", true, 104857, Except.ok ⟨Mode.RGBA, false⟩, none, 52428⟩

/-- An entry whose decode raises. -/
def sampleBroken : Entry :=
  ⟨"broken.jpg", true, 1024, Except.error "cannot identify image file", none, 0⟩

/-- A zero-byte entry (decoding it also fails). -/
def sampleEmptyJpg : Entry :=
  ⟨"empty.jpg", true, 0, Except.error "cannot identify image file", none, 0⟩

/-- A HEIC entry. -/
def sampleHeic : Entry :=
  ⟨"photo.heic", true, 2048, Except.ok ⟨Mode.RGB, false⟩, none, 1024⟩

/-- A small input directory: one good file, one broken file. -/
def sampleFS : FS := ⟨[samplePng, sampleBroken], []⟩

/-- An input directory holding only a HEIC file. -/
def heicFS : FS := ⟨[sampleHeic], []⟩

/-- An input directory holding only a zero-byte file. -/
def emptyFileFS : FS := ⟨[sampleEmptyJpg], []⟩

/-! ## Helper lemmas -/

/-- The Bool alpha test agrees with its propositional reading. -/
theorem hasAlpha_iff (img : Image) :
    hasAlpha img = true ↔
      (img.mode = Mode.RGBA ∨ img.mode = Mode.LA ∨
        (img.mode = Mode.P ∧ img.infoTransparency = true)) := by
  rcases img with ⟨m, t⟩
  cases m <;> cases t <;> simp [hasAlpha]

/-- Both branches of `reportOf` record the file's name. -/
theorem reportOf_fileName (j : Entry) : (reportOf j).fileName = j.name := by
  cases hs : (convResultOf j).saved <;> simp [reportOf, hs]

/-- Both branches of `reportOf` record the derived output path. -/
theorem reportOf_outputPath (j : Entry) : (reportOf j).outputPath = outputPathFor j.name := by
  cases hs : (convResultOf j).saved <;> simp [reportOf, hs]

/-- `processFile` appends exactly the file's report. -/
theorem processFile_reports (st : RunState) (j : Entry) :
    (processFile st j).reports = st.reports ++ [reportOf j] := by
  cases hs : (convResultOf j).saved <;> simp [processFile, hs]

/-- The loop appends one report per job, in order. -/
theorem runLoop_reports (jobs : List Entry) (st : RunState) :
    (runLoop jobs st).reports = st.reports ++ jobs.map reportOf := by
  induction jobs generalizing st with
  | nil => simp [runLoop]
  | cons j rest ih =>
    simp [runLoop, ih, processFile_reports, List.append_assoc]

/-- `processFile` only writes into the output directory. -/
theorem processFile_inputDir (st : RunState) (j : Entry) :
    (processFile st j).fs.inputDir = st.fs.inputDir := by
  cases hs : (convResultOf j).saved <;> simp [processFile, hs]

/-- The loop never touches the input directory. -/
theorem runLoop_inputDir (jobs : List Entry) (st : RunState) :
    (runLoop jobs st).fs.inputDir = st.fs.inputDir := by
  induction jobs generalizing st with
  | nil => rfl
  | cons j rest ih => simp [runLoop, ih, processFile_inputDir]

/-- A conversion succeeds exactly when a save was performed. -/
theorem convResultOf_saved_isSome (j : Entry) :
    (convResultOf j).saved.isSome = (convResultOf j).success := by
  unfold convResultOf convert_to_webp
  cases j.decodeRes <;> cases j.encodeErr <;> rfl

/-- `processFile` adds the input size unconditionally. -/
theorem processFile_input_total (st : RunState) (j : Entry) :
    (processFile st j).total_input_size =
      st.total_input_size + get_file_size_mb j.inputBytes := by
  cases hs : (convResultOf j).saved <;> simp [processFile, hs]

/-- `processFile` adds the output size exactly on success. -/
theorem processFile_output_total (st : RunState) (j : Entry) :
    (processFile st j).total_output_size =
      st.total_output_size +
        (if (convResultOf j).success = true then get_file_size_mb j.outputBytes else 0) := by
  have h := convResultOf_saved_isSome j
  cases hs : (convResultOf j).saved <;> rw [hs] at h <;>
    simp [processFile, hs, ← h]

/-- `processFile` bumps the success count exactly on success. -/
theorem processFile_success_count (st : RunState) (j : Entry) :
    (processFile st j).success_count =
      st.success_count + (if (convResultOf j).success = true then 1 else 0) := by
  have h := convResultOf_saved_isSome j
  cases hs : (convResultOf j).saved <;> rw [hs] at h <;>
    simp [processFile, hs, ← h]

/-- Input total over the whole loop: the sum over every job. -/
theorem runLoop_input_total (jobs : List Entry) (st : RunState) :
    (runLoop jobs st).total_input_size =
      st.total_input_size + (jobs.map (fun j => get_file_size_mb j.inputBytes)).sum := by
  induction jobs generalizing st with
  | nil => simp [runLoop]
  | cons j rest ih =>
    simp [runLoop, ih, processFile_input_total, add_assoc]

/-- Output total over the whole loop: the sum over the successful jobs. -/
theorem runLoop_output_total (jobs : List Entry) (st : RunState) :
    (runLoop jobs st).total_output_size =
      st.total_output_size +
        ((jobs.filter (fun j => (convResultOf j).success)).map
          (fun j => get_file_size_mb j.outputBytes)).sum := by
  induction jobs generalizing st with
  | nil => simp [runLoop]
  | cons j rest ih =>
    rw [runLoop, ih, processFile_output_total]
    cases hs : (convResultOf j).success
    · simp [List.filter_cons, hs]
    · simp [List.filter_cons, hs, add_assoc]

/-- Success count over the whole loop. -/
theorem runLoop_success_count (jobs : List Entry) (st : RunState) :
    (runLoop jobs st).success_count =
      st.success_count + (jobs.filter (fun j => (convResultOf j).success)).length := by
  induction jobs generalizing st with
  | nil => simp [runLoop]
  | cons j rest ih =>
    rw [runLoop, ih, processFile_success_count]
    cases hs : (convResultOf j).success
    · simp [List.filter_cons, hs]
    · simp [List.filter_cons, hs, add_assoc, add_comm]

/-- Membership in the discovered files, unfolded. -/
theorem mem_imageFiles (entries : List Entry) (heicSupported : Bool) (f : Entry) :
    f ∈ imageFiles entries heicSupported ↔
      f ∈ entries ∧ f.isFile = true ∧
        (lowerStr (pySuffix f.name) ∈ SUPPORTED_FORMATS ∨
          (heicSupported = true ∧ lowerStr (pySuffix f.name) ∈ HEIC_FORMATS)) := by
  cases heicSupported <;>
    simp [imageFiles, List.mem_filter, all_formats, and_assoc]

/-- The reports of a `main` run are, in order, the reports of the
discovered files. -/
theorem main_reports (fs : FS) (heicSupported : Bool) :
    (main fs heicSupported).state.reports =
      (imageFiles fs.inputDir heicSupported).map reportOf := by
  unfold main
  cases he : (imageFiles fs.inputDir heicSupported).isEmpty
  · simp [he, runLoop_reports, initState]
  · simp [he, initState, List.isEmpty_iff.mp he]

/-- The final loop state of a `main` run: on the early return the state is
the initial one, which is also what the loop yields on an empty job list. -/
theorem main_state (fs : FS) (heicSupported : Bool) :
    (main fs heicSupported).state =
      runLoop (imageFiles fs.inputDir heicSupported) (initState fs) := by
  unfold main
  cases hie : (imageFiles fs.inputDir heicSupported).isEmpty
  · simp [hie]
  · simp [hie, List.isEmpty_iff.mp hie, runLoop]

/-- The warning field of a `main` run. -/
theorem main_warning (fs : FS) (heicSupported : Bool) :
    (main fs heicSupported).warning =
      (if !(heicFiles fs.inputDir).isEmpty && !heicSupported
        then some (heicFiles fs.inputDir).length else none) := by
  unfold main
  cases hie : (imageFiles fs.inputDir heicSupported).isEmpty <;> simp [hie]

/-! ## Claims -/

/-- C1: a successfully decoded image in mode RGBA or LA, or in mode P with a
transparency entry, is saved as WebP with alpha kept (lossless explicitly
false) at the given quality; any other non-RGB mode is first converted to RGB
and then saved at the given quality, and RGB images are saved directly. -/
theorem convert_alpha_policy (img : Image) (quality : Nat) (outPath : String) :
    ((img.mode = Mode.RGBA ∨ img.mode = Mode.LA ∨
        (img.mode = Mode.P ∧ img.infoTransparency = true)) →
      convertBody img outPath quality =
        ⟨outPath, "WEBP", quality, some false, img.mode, false⟩) ∧
    ((¬(img.mode = Mode.RGBA ∨ img.mode = Mode.LA ∨
        (img.mode = Mode.P ∧ img.infoTransparency = true))) → img.mode ≠ Mode.RGB →
      convertBody img outPath quality =
        ⟨outPath, "WEBP", quality, none, Mode.RGB, true⟩) ∧
    (img.mode = Mode.RGB →
      convertBody img outPath quality =
        ⟨outPath, "WEBP", quality, none, Mode.RGB, false⟩) := by
  refine ⟨?_, ?_, ?_⟩
  · intro h
    have hb : hasAlpha img = true := (hasAlpha_iff img).mpr h
    simp [convertBody, hb]
  · intro h hrgb
    have hb : hasAlpha img = false := by
      cases hh : hasAlpha img
      · rfl
      · exact absurd ((hasAlpha_iff img).mp hh) h
    simp [convertBody, hb, bne_iff_ne, hrgb]
  · intro h
    have hb : hasAlpha img = false := by
      cases hh : hasAlpha img
      · rfl
      · rcases (hasAlpha_iff img).mp hh with h1 | h1 | ⟨h1, _⟩ <;> rw [h] at h1 <;>
          exact Mode.noConfusion h1
    simp [convertBody, hb, h]

/-- Witness for C1 at a concrete RGBA image. -/
theorem convert_alpha_policy_witness :
    convertBody ⟨Mode.RGBA, false⟩ "przerobione/icon.webp" 85 =
      ⟨"przerobione/icon.webp", "WEBP", 85, some false, Mode.RGBA, false⟩ :=
  (convert_alpha_policy ⟨Mode.RGBA, false⟩ 85 "przerobione/icon.webp").1 (Or.inl rfl)

/-- C2: every decode or encode error is caught inside `convert_to_webp`,
logged together with the file name and the underlying message, and turned
into a `false` return value; the loop still yields one report per file in
order, so a failure never stops the batch. -/
theorem conversion_error_contained :
    (∀ inputName outPath quality e encodeErr,
      convert_to_webp inputName outPath quality (Except.error e) encodeErr =
        ⟨false, none, [errorLine inputName e]⟩) ∧
    (∀ inputName outPath quality img e,
      convert_to_webp inputName outPath quality (Except.ok img) (some e) =
        ⟨false, none, [errorLine inputName e]⟩) ∧
    (∀ inputName e,
      errorLine inputName e = "  ❌ Błąd podczas konwersji " ++ inputName ++ ": " ++ e) ∧
    (∀ jobs st, (runLoop jobs st).reports = st.reports ++ jobs.map reportOf) :=
  ⟨fun _ _ _ _ _ => rfl, fun _ _ _ _ _ => rfl, fun _ _ => rfl, runLoop_reports⟩

/-- C3: the process exits non-zero exactly when Pillow fails to import, and
then only after printing the installation guidance; in every other run `main`
executes and the process terminates normally with status 0, whatever the
per-file outcomes were. -/
theorem exit_status_pillow_only (pillowOk : Bool) (fs : FS) (heicSupported : Bool) :
    ((programRun pillowOk fs heicSupported).1 ≠ 0 ↔ pillowOk = false) ∧
    (pillowOk = false →
      (programRun pillowOk fs heicSupported).1 = 1 ∧
      (programRun pillowOk fs heicSupported).2.1 = pillowGuidance ∧
      (programRun pillowOk fs heicSupported).2.2 = none) ∧
    (pillowOk = true →
      (programRun pillowOk fs heicSupported).1 = 0 ∧
      (programRun pillowOk fs heicSupported).2.2 = some (main fs heicSupported)) := by
  cases pillowOk <;> simp [programRun]

/-- Witness for C3: missing Pillow exits 1; with Pillow, a run over a batch
with a failing file still exits 0. -/
theorem exit_status_pillow_only_witness :
    (programRun false sampleFS false).1 = 1 ∧ (programRun true sampleFS false).1 = 0 :=
  ⟨((exit_status_pillow_only false sampleFS false).2.1 rfl).1,
   ((exit_status_pillow_only true sampleFS false).2.2 rfl).1⟩

/-- C4: discovery selects exactly the regular files whose extension, compared
case-insensitively, is in the recognized set; that set is the seven baseline
extensions, extended with `.heic`/`.heif` exactly when the HEIF decoder
loaded at startup. -/
theorem discovery_extension_filter (entries : List Entry) (heicSupported : Bool) (f : Entry) :
    f ∈ imageFiles entries heicSupported ↔
      f ∈ entries ∧ f.isFile = true ∧
        (lowerStr (pySuffix f.name) ∈ SUPPORTED_FORMATS ∨
          (heicSupported = true ∧ lowerStr (pySuffix f.name) ∈ HEIC_FORMATS)) :=
  mem_imageFiles entries heicSupported f

/-- C5: when a regular file with a HEIC extension is present and the HEIF
decoder is unavailable, `main` warns with the count of those files, the
warning carries the installation hint, the files are excluded from the
conversion set, and the process still terminates normally with status 0. -/
theorem heic_soft_skip (fs : FS) (f : Entry)
    (hmem : f ∈ fs.inputDir) (hfile : f.isFile = true)
    (hext : lowerStr (pySuffix f.name) ∈ HEIC_FORMATS) :
    (main fs false).warning = some (heicFiles fs.inputDir).length ∧
    0 < (heicFiles fs.inputDir).length ∧
    f ∉ imageFiles fs.inputDir false ∧
    "   Zainstaluj ją komendą: pip install pillow-heif" ∈
      heicWarningLines (heicFiles fs.inputDir).length ∧
    (programRun true fs false).1 = 0 := by
  have hf : f ∈ heicFiles fs.inputDir := by
    simp [heicFiles, List.mem_filter, hmem, hfile, hext]
  have hne : heicFiles fs.inputDir ≠ [] := List.ne_nil_of_mem hf
  refine ⟨?_, ?_, ?_, ?_, ?_⟩
  · rw [main_warning]
    simp [List.isEmpty_iff, hne]
  · exact List.length_pos.mpr hne
  · intro hin
    rcases (mem_imageFiles fs.inputDir false f).mp hin with ⟨-, -, hcase⟩
    rcases hcase with hsup | ⟨hfalse, -⟩
    · simp [HEIC_FORMATS] at hext
      rcases hext with h1 | h1 <;> rw [h1] at hsup <;> exact absurd hsup (by decide)
    · exact Bool.noConfusion hfalse
  · simp [heicWarningLines]
  · rfl

/-- Witness for C5: one HEIC file, decoder missing. -/
theorem heic_soft_skip_witness :
    (main heicFS false).warning = some (heicFiles heicFS.inputDir).length ∧
    0 < (heicFiles heicFS.inputDir).length ∧
    sampleHeic ∉ imageFiles heicFS.inputDir false ∧
    "   Zainstaluj ją komendą: pip install pillow-heif" ∈
      heicWarningLines (heicFiles heicFS.inputDir).length ∧
    (programRun true heicFS false).1 = 0 :=
  heic_soft_skip heicFS sampleHeic (by simp [heicFS]) rfl (by decide)

/-- C6: the per-file output path is the output directory joined with the
input file's stem plus `.webp`, and a write replaces whatever the output
directory held under that path — an unconditional overwrite. -/
theorem output_naming_overwrite :
    (∀ jobs st, ((runLoop jobs st).reports).map (fun r => (r.fileName, r.outputPath)) =
        (st.reports).map (fun r => (r.fileName, r.outputPath)) ++
          jobs.map (fun j => (j.name, OUTPUT_FOLDER ++ "/" ++ (pyStem j.name ++ ".webp")))) ∧
    (∀ dir path content, (writeOut dir path content).lookup path = some content) := by
  constructor
  · intro jobs st
    simp [runLoop_reports, List.map_map, Function.comp, reportOf_fileName,
      reportOf_outputPath, outputPathFor]
  · intro dir path content
    induction dir with
    | nil => simp [writeOut, List.lookup]
    | cons p rest ih =>
      rcases p with ⟨n, c⟩
      by_cases h : n = path
      · simp [writeOut, h, List.lookup]
      · have hb : (path == n) = false := beq_eq_false_iff_ne.mpr (Ne.symm h)
        simp [writeOut, h, List.lookup, ih, hb]

/-- C7: a successful per-file report carries the reduction percentage
`(input - output) / input * 100` whenever the input size is strictly
positive, and carries 0 when the input size is 0 — the per-file statistics
never divide by zero. -/
theorem reduction_guard (fs : FS) (heicSupported : Bool) (r : Report)
    (hr : r ∈ (main fs heicSupported).state.reports) (hs : r.success = true) :
    ∃ o, r.outputMB = some o ∧
      (0 < r.inputMB → r.reduction = some ((r.inputMB - o) / r.inputMB * 100)) ∧
      (r.inputMB = 0 → r.reduction = some 0) := by
  rw [main_reports] at hr
  rcases List.mem_map.mp hr with ⟨j, -, rfl⟩
  cases hsv : (convResultOf j).saved
  · rw [show (reportOf j).success = false from by simp [reportOf, hsv]] at hs
    exact Bool.noConfusion hs
  · refine ⟨get_file_size_mb j.outputBytes, by simp [reportOf, hsv], ?_, ?_⟩
    · intro hpos
      simp only [reportOf, hsv] at hpos ⊢
      simp [hpos]
    · intro hzero
      simp only [reportOf, hsv] at hzero ⊢
      simp [hzero]

/-- Witness for C7 at a run containing one convertible file. -/
theorem reduction_guard_witness :
    ∃ o, (reportOf samplePng).outputMB = some o ∧
      (0 < (reportOf samplePng).inputMB →
        (reportOf samplePng).reduction =
          some (((reportOf samplePng).inputMB - o) / (reportOf samplePng).inputMB * 100)) ∧
      ((reportOf samplePng).inputMB = 0 → (reportOf samplePng).reduction = some 0) :=
  reduction_guard sampleFS false (reportOf samplePng)
    (by rw [main_reports]; exact List.mem_map_of_mem reportOf (by decide)) rfl

/-- C8 as stated is false: a run that discovers no files prints no aggregate
summary at all, and a run whose only discovered file has size 0 prints a
summary in which the absolute space-saved figure is omitted together with
the percentage, not the percentage alone. -/
theorem summary_savings_counterexample :
    (main ⟨[], []⟩ false).summary = none ∧
    ∃ s, (main emptyFileFS false).summary = some s ∧
      s.total_input_size = 0 ∧ s.savings = none := by
  constructor
  · rfl
  · have hie : (imageFiles emptyFileFS.inputDir false).isEmpty = false := by decide
    have himg : imageFiles emptyFileFS.inputDir false = [sampleEmptyJpg] := by decide
    have hsum : (main emptyFileFS false).summary =
        some (mkSummary
          (runLoop (imageFiles emptyFileFS.inputDir false) (initState emptyFileFS))
          (imageFiles emptyFileFS.inputDir false).length) := by
      unfold main
      simp [hie]
    have hti : (runLoop (imageFiles emptyFileFS.inputDir false)
        (initState emptyFileFS)).total_input_size = 0 := by
      rw [runLoop_input_total, himg]
      simp [initState, get_file_size_mb, sampleEmptyJpg]
    refine ⟨_, hsum, ?_, ?_⟩
    · simpa [mkSummary] using hti
    · simp [mkSummary, hti]

/-- C8 amended: in every run that discovers at least one file, the program
prints an aggregate summary containing the count of successes out of the
total attempted, the total input size, the total output size, and — exactly
when the total input size is strictly positive — the absolute and percentage
space saved; when the total input size is 0 both figures are omitted. -/
theorem summary_amended (fs : FS) (heicSupported : Bool)
    (hne : imageFiles fs.inputDir heicSupported ≠ []) :
    ∃ s, (main fs heicSupported).summary = some s ∧
      s.success_count =
        ((imageFiles fs.inputDir heicSupported).filter
          (fun j => (convResultOf j).success)).length ∧
      s.total_count = (imageFiles fs.inputDir heicSupported).length ∧
      s.total_input_size =
        ((imageFiles fs.inputDir heicSupported).map
          (fun j => get_file_size_mb j.inputBytes)).sum ∧
      s.total_output_size =
        (((imageFiles fs.inputDir heicSupported).filter
          (fun j => (convResultOf j).success)).map
          (fun j => get_file_size_mb j.outputBytes)).sum ∧
      (0 < s.total_input_size →
        s.savings = some (s.total_input_size - s.total_output_size,
          (s.total_input_size - s.total_output_size) / s.total_input_size * 100)) ∧
      (s.total_input_size = 0 → s.savings = none) := by
  have hie : (imageFiles fs.inputDir heicSupported).isEmpty = false := by
    simp [List.isEmpty_iff, hne]
  have hsum : (main fs heicSupported).summary =
      some (mkSummary (runLoop (imageFiles fs.inputDir heicSupported) (initState fs))
        (imageFiles fs.inputDir heicSupported).length) := by
    unfold main
    simp [hie]
  refine ⟨_, hsum, ?_, rfl, ?_, ?_, ?_, ?_⟩
  · simp [mkSummary, runLoop_success_count, initState]
  · simp [mkSummary, runLoop_input_total, initState]
  · simp [mkSummary, runLoop_output_total, initState]
  · intro hpos
    simp only [mkSummary] at hpos ⊢
    rw [if_pos hpos]
  · intro hzero
    simp only [mkSummary] at hzero ⊢
    rw [hzero]
    simp

/-- Witness for the amended C8 at a two-file batch with one failure. -/
theorem summary_amended_witness :
    ∃ s, (main sampleFS false).summary = some s ∧
      s.success_count =
        ((imageFiles sampleFS.inputDir false).filter
          (fun j => (convResultOf j).success)).length ∧
      s.total_count = (imageFiles sampleFS.inputDir false).length ∧
      s.total_input_size =
        ((imageFiles sampleFS.inputDir false).map
          (fun j => get_file_size_mb j.inputBytes)).sum ∧
      s.total_output_size =
        (((imageFiles sampleFS.inputDir false).filter
          (fun j => (convResultOf j).success)).map
          (fun j => get_file_size_mb j.outputBytes)).sum ∧
      (0 < s.total_input_size →
        s.savings = some (s.total_input_size - s.total_output_size,
          (s.total_input_size - s.total_output_size) / s.total_input_size * 100)) ∧
      (s.total_input_size = 0 → s.savings = none) :=
  summary_amended sampleFS false (by decide)

/-- C9: throughout the loop the running input total is the sum of the sizes
of every file processed so far and the running output total the sum over the
successfully converted ones only, and the same holds of the final state of
every run — a failed file contributes to the input total but not to the
output total. -/
theorem totals_invariant (jobs : List Entry) (st : RunState) :
    ((runLoop jobs st).total_input_size =
      st.total_input_size + (jobs.map (fun j => get_file_size_mb j.inputBytes)).sum) ∧
    ((runLoop jobs st).total_output_size =
      st.total_output_size +
        ((jobs.filter (fun j => (convResultOf j).success)).map
          (fun j => get_file_size_mb j.outputBytes)).sum) ∧
    (∀ fs heicSupported,
      (main fs heicSupported).state.total_input_size =
        ((imageFiles fs.inputDir heicSupported).map
          (fun j => get_file_size_mb j.inputBytes)).sum ∧
      (main fs heicSupported).state.total_output_size =
        (((imageFiles fs.inputDir heicSupported).filter
          (fun j => (convResultOf j).success)).map
          (fun j => get_file_size_mb j.outputBytes)).sum) := by
  refine ⟨runLoop_input_total jobs st, runLoop_output_total jobs st, ?_⟩
  intro fs heicSupported
  rw [main_state]
  constructor
  · simp [runLoop_input_total, initState]
  · simp [runLoop_output_total, initState]

/-- C10: no run modifies the input directory: the loop writes only into the
output directory, so after `main` (failures included) the input entries are
exactly the initial ones. -/
theorem input_dir_unchanged (fs : FS) (heicSupported : Bool) :
    (main fs heicSupported).state.fs.inputDir = fs.inputDir ∧
    (∀ jobs st, (runLoop jobs st).fs.inputDir = st.fs.inputDir) := by
  refine ⟨?_, runLoop_inputDir⟩
  rw [main_state, runLoop_inputDir]
  rfl

end Konwerter
